import Mathlib

/-!
Verification of the cryptoki-bridge PKCS#11 core: a shallow embedding of the
key-management entry points (src/cryptoki/key_management.rs), the stubbed
encryption entry points (pkcs11/src/cryptoki/encryption.rs), and — modelled
from the specification where the code is outside the staged sources — the
session/object state manager and the AES-CBC key-wrap engine.

Conventions of the embedding:
* machine bytes and handles are `Nat`;
* a C pointer argument is `Option` of the pointed data (`none` = NULL); an
  output pointer is a `Bool` null-flag, and the value the call writes through
  it is a field of the result record;
* a call that the Rust code lets panic (an `unwrap()` on `None`, a slice
  `split_at` out of range, the `unimplemented!()` macro, a write through a
  NULL pointer) is an `Outcome.panic` carrying the reason and the state at
  the moment of the abort;
* the process-global token state is threaded explicitly, and the random
  source is an input byte stream consumed from the front.
-/

/-- Return value CKR_OK of the PKCS#11 bindings. -/
def CKR_OK : Nat := 0

/-- Return value CKR_GENERAL_ERROR of the PKCS#11 bindings. -/
def CKR_GENERAL_ERROR : Nat := 5

/-- Return value CKR_ARGUMENTS_BAD of the PKCS#11 bindings. -/
def CKR_ARGUMENTS_BAD : Nat := 7

/-- Return value CKR_FUNCTION_NOT_SUPPORTED (0x54) of the PKCS#11 bindings. -/
def CKR_FUNCTION_NOT_SUPPORTED : Nat := 84

/-- Return value CKR_MECHANISM_INVALID (0x70) of the PKCS#11 bindings: the
status PKCS#11 reserves for an unsupported mechanism. -/
def CKR_MECHANISM_INVALID : Nat := 112

/-- Return value CKR_OBJECT_HANDLE_INVALID (0x82) of the PKCS#11 bindings. -/
def CKR_OBJECT_HANDLE_INVALID : Nat := 130

/-- Return value CKR_SESSION_HANDLE_INVALID (0xB3) of the PKCS#11 bindings. -/
def CKR_SESSION_HANDLE_INVALID : Nat := 179

/-- Return value CKR_WRAPPED_KEY_INVALID (0x110) of the PKCS#11 bindings: the
"wrapped key malformed" status. -/
def CKR_WRAPPED_KEY_INVALID : Nat := 272

/-- Mechanism code CKM_AES_KEY_GEN (0x1080) of the PKCS#11 bindings. -/
def CKM_AES_KEY_GEN : Nat := 4224

/-- Constant AES_BLOCK_SIZE from key_management.rs. -/
def AES_BLOCK_SIZE : Nat := 16

/-- Constant AES_IV_SIZE from key_management.rs (equal to the block size). -/
def AES_IV_SIZE : Nat := AES_BLOCK_SIZE

/-- Object class of a cryptoki object: the three variants of the source
(secret_key_object.rs, private_key_object.rs, public key). -/
inductive ObjectClass where
  | secretKey
  | privateKey
  | publicKey
deriving DecidableEq

/-- Modelled from the spec: a Cryptoki Object is a tagged variant carrying an
attribute set and an optional raw key-material buffer (the CryptokiObject
capability set store_value / get_value / attributes). -/
structure CryptokiObject where
  objClass : ObjectClass
  attributes : List (Nat × List Nat)
  value : Option (List Nat)
deriving DecidableEq

/-- Capability store_value of a cryptoki object: sets the key material
(re-invocation overwrites). -/
def CryptokiObject.store_value (o : CryptokiObject) (v : List Nat) : CryptokiObject :=
  { o with value := some v }

/-- Capability get_value of a cryptoki object: the raw key material, `none`
when store_value has not been called (the "no value present" condition). -/
def CryptokiObject.get_value (o : CryptokiObject) : Option (List Nat) :=
  o.value

/-- Constructor SecretKeyObject::from_template: an object pre-populated with
the template attributes and no key material. -/
def SecretKeyObject.from_template (t : List (Nat × List Nat)) : CryptokiObject :=
  ⟨ObjectClass.secretKey, t, none⟩

/-- Constructor PrivateKeyObject::new: a private-key object with no
attributes and no key material. -/
def PrivateKeyObject.new : CryptokiObject :=
  ⟨ObjectClass.privateKey, [], none⟩

/-- Modelled from the spec: an object stored by the State Accessor — its
handle, the session that created it, whether it is ephemeral (destroyed when
that session closes) and the object itself. -/
structure StoredObject where
  handle : Nat
  session : Nat
  ephemeral : Bool
  obj : CryptokiObject
deriving DecidableEq

/-- Modelled from the spec: the process-wide token state the State Accessor
manages — the open sessions, the object store, the per-session asymmetric
keypair handles, and the monotonic handle allocator. -/
structure TokenState where
  sessions : List Nat
  objects : List StoredObject
  keypairs : List (Nat × Nat × Nat)
  nextHandle : Nat
deriving DecidableEq

/-- Error conditions of the State Accessor, as the closed condition set of
the spec's error-handling design. -/
inductive CkError where
  | sessionHandleInvalid
  | objectHandleInvalid
  | generalError
deriving DecidableEq

/-- Mapping of a state error to its external status code (into_ck_rv in the
source). -/
def CkError.into_ck_rv : CkError → Nat
  | .sessionHandleInvalid => CKR_SESSION_HANDLE_INVALID
  | .objectHandleInvalid => CKR_OBJECT_HANDLE_INVALID
  | .generalError => CKR_GENERAL_ERROR

namespace StateAccessor

/-- Modelled from the spec: create_object allocates a fresh handle and stores
the object as persistent, associated with the creating session; it fails with
"session handle invalid" when the session does not exist. -/
def create_object (st : TokenState) (hSession : Nat) (obj : CryptokiObject) :
    Except CkError (Nat × TokenState) :=
  if hSession ∈ st.sessions then
    Except.ok (st.nextHandle,
      { st with
        objects := ⟨st.nextHandle, hSession, false, obj⟩ :: st.objects,
        nextHandle := st.nextHandle + 1 })
  else Except.error CkError.sessionHandleInvalid

/-- Modelled from the spec: create_ephemeral_object is the same allocation as
create_object, but the object is destroyed automatically when the owning
session closes. -/
def create_ephemeral_object (st : TokenState) (hSession : Nat) (obj : CryptokiObject) :
    Except CkError (Nat × TokenState) :=
  if hSession ∈ st.sessions then
    Except.ok (st.nextHandle,
      { st with
        objects := ⟨st.nextHandle, hSession, true, obj⟩ :: st.objects,
        nextHandle := st.nextHandle + 1 })
  else Except.error CkError.sessionHandleInvalid

/-- Modelled from the spec: get_object resolves a handle to its object; it
fails with "object handle invalid" when the handle is unknown, and with
"session handle invalid" when the session does not exist or has no rights to
the handle (an ephemeral object is only usable within its owning session). -/
def get_object (st : TokenState) (hSession : Nat) (hObject : Nat) :
    Except CkError CryptokiObject :=
  if hSession ∈ st.sessions then
    match st.objects.find? (fun o => o.handle == hObject) with
    | some o =>
        if o.ephemeral = false ∨ o.session = hSession then Except.ok o.obj
        else Except.error CkError.sessionHandleInvalid
    | none => Except.error CkError.objectHandleInvalid
  else Except.error CkError.sessionHandleInvalid

/-- Modelled from the spec: get_keypair returns the asymmetric pair
(private-key handle, public-key handle) of the session's key-pair generation
flow; it fails when the session does not exist or holds no pair. -/
def get_keypair (st : TokenState) (hSession : Nat) : Except CkError (Nat × Nat) :=
  if hSession ∈ st.sessions then
    match st.keypairs.find? (fun kp => kp.1 == hSession) with
    | some kp => Except.ok (kp.2.1, kp.2.2)
    | none => Except.error CkError.generalError
  else Except.error CkError.sessionHandleInvalid

end StateAccessor

/-- Modelled from the spec: the underlying block cipher (AES-128 in the
source, provided by the external aes crate) as a pair of keyed maps on
16-byte blocks. -/
structure BlockCipher where
  enc : List Nat → List Nat → List Nat
  dec : List Nat → List Nat → List Nat

/-- Bytewise xor of two equal-length byte lists (the CBC chaining step). -/
def xorB (a b : List Nat) : List Nat :=
  List.zipWith (fun x y => x ^^^ y) a b

/-- Modelled from the spec: PKCS-style padding to the 16-byte block boundary
(`p` copies of the byte `p`, where `p` is the distance to the boundary,
always at least 1). -/
def pkcs7_pad (l : List Nat) : List Nat :=
  l ++ List.replicate (16 - l.length % 16) (16 - l.length % 16)

/-- Modelled from the spec: PKCS-style padding removal; `none` when the
trailing bytes are not a valid padding block (the padding-failure condition
of the unwrap path). -/
def pkcs7_unpad (l : List Nat) : Option (List Nat) :=
  match l.getLast? with
  | none => none
  | some p =>
      if p = 0 ∨ 16 < p ∨ l.length < p then none
      else if l.drop (l.length - p) = List.replicate p p then
        some (l.take (l.length - p))
      else none

/-- CBC encryption of a 16-padded byte list, one block per step, chained from
the previous ciphertext block; the fuel argument bounds the recursion and is
instantiated with the input length. -/
def cbcEncGo (E : List Nat → List Nat) : Nat → List Nat → List Nat → List Nat
  | 0, _, _ => []
  | fuel + 1, prev, l =>
      match l with
      | [] => []
      | x :: r =>
          let c := E (xorB ((x :: r).take 16) prev)
          c ++ cbcEncGo E fuel c ((x :: r).drop 16)

/-- CBC decryption, the inverse chaining of cbcEncGo. -/
def cbcDecGo (D : List Nat → List Nat) : Nat → List Nat → List Nat → List Nat
  | 0, _, _ => []
  | fuel + 1, prev, l =>
      match l with
      | [] => []
      | x :: r =>
          xorB (D ((x :: r).take 16)) prev ++
            cbcDecGo D fuel ((x :: r).take 16) ((x :: r).drop 16)

/-- Output of the wrap engine: the sampled IV and the ciphertext
(internals::encryption::EncryptionOutput). -/
structure EncryptionOutput where
  iv : List Nat
  ciphertext : List Nat
deriving DecidableEq

/-- Concatenation IV followed by ciphertext (into_combined in the source):
the external wrapped-key blob format. -/
def EncryptionOutput.into_combined (eo : EncryptionOutput) : List Nat :=
  eo.iv ++ eo.ciphertext

/-- Modelled from the spec: the wrap half of the Key-Wrap Engine
(internals::encryption::encrypt, not in the staged sources) — sample a fresh
16-byte IV from the random stream, pad the plaintext to the block boundary
and encrypt it in CBC mode under the wrapping key. -/
def encrypt (cipher : BlockCipher) (key : List Nat) (plaintext : List Nat)
    (rng : List Nat) : EncryptionOutput :=
  let iv := rng.take AES_IV_SIZE
  ⟨iv, cbcEncGo (cipher.enc key) (pkcs7_pad plaintext).length iv (pkcs7_pad plaintext)⟩

/-- Modelled from the spec: the unwrap half of the Key-Wrap Engine
(internals::encryption::decrypt, not in the staged sources) — CBC-decrypt the
ciphertext under the key and strip the padding; `none` when padding removal
fails. -/
def decrypt (cipher : BlockCipher) (key : List Nat) (ciphertext : List Nat)
    (iv : List Nat) : Option (List Nat) :=
  pkcs7_unpad (cbcDecGo (cipher.dec key) ciphertext.length iv ciphertext)

/-- Modelled from the spec: destructure_iv_ciphertext (not in the staged
sources) reads the given number of bytes at the wrapped-key pointer and
splits the fixed-size IV prefix from the remaining ciphertext; `none` when
the blob is shorter than one block (in the source a slice split_at out of
range, i.e. a panic of the caller). -/
def destructure_iv_ciphertext (blob : List Nat) (len : Nat) : Option EncryptionOutput :=
  let data := blob.take len
  if data.length < AES_IV_SIZE then none
  else some ⟨data.take AES_IV_SIZE, data.drop AES_IV_SIZE⟩

/-- Reason a call aborts the process instead of returning a status. -/
inductive PanicReason where
  | noValue
  | shortBlob
  | badPadding
  | nullDeref
  | unimplemented
deriving DecidableEq

/-- Result of an entry point: a returned status (with the writes the call
performed) or a process abort carrying the state at the moment of the
abort. -/
inductive Outcome (α : Type) where
  | ok : α → Outcome α
  | panic : PanicReason → TokenState → Outcome α
deriving DecidableEq

/-- Observable result of C_GenerateKey: the status, the state after the call
and the handle value written through phKey (if any). -/
structure GenerateKeyResult where
  rv : Nat
  state : TokenState
  phKey : Option Nat
deriving DecidableEq

/-- Entry point C_GenerateKey from key_management.rs: null checks, the
AES-key-generation mechanism gate, template decoding, fresh 16-byte key
material from the random source, and object creation through the State
Accessor. The mechanism comparison of the source truncates the CK_ULONG
mechanism code to u32 first (the `as u32` cast), modelled here as reduction
modulo 2^32. The create_object error arm of the source yields
err.into_ck_rv() as the handle value (its match arm has no return), so the
error code is written through phKey and the call falls through to CKR_OK. -/
def C_GenerateKey (st : TokenState) (rng : List Nat) (hSession : Nat)
    (pMechanism : Option Nat) (pTemplate : Option (List (Nat × List Nat)))
    (ulCount : Nat) (phKeyNull : Bool) : GenerateKeyResult :=
  match pMechanism, pTemplate, phKeyNull with
  | some mechanism, some rawTemplate, false =>
      if mechanism % 4294967296 ≠ CKM_AES_KEY_GEN then
        ⟨CKR_FUNCTION_NOT_SUPPORTED, st, none⟩
      else
        let template := rawTemplate.take ulCount
        let object := (SecretKeyObject.from_template template).store_value
          (rng.take 16)
        match StateAccessor.create_object st hSession object with
        | Except.ok (handle, st2) => ⟨CKR_OK, st2, some handle⟩
        | Except.error err => ⟨CKR_OK, st, some err.into_ck_rv⟩
  | _, _, _ => ⟨CKR_ARGUMENTS_BAD, st, none⟩

/-- Observable result of C_GenerateKeyPair: the status, the state and the
handles written through phPublicKey and phPrivateKey. -/
structure GenerateKeyPairResult where
  rv : Nat
  state : TokenState
  phPublicKey : Option Nat
  phPrivateKey : Option Nat
deriving DecidableEq

/-- Entry point C_GenerateKeyPair from key_management.rs: no null check on
any argument; the session's keypair is resolved through the State Accessor
and the two handles are written through the output pointers unconditionally
(a null output pointer is dereferenced, i.e. the process aborts). -/
def C_GenerateKeyPair (st : TokenState) (hSession : Nat) (pMechanism : Option Nat)
    (pPublicKeyTemplate : Option (List (Nat × List Nat))) (ulPublicKeyAttributeCount : Nat)
    (pPrivateKeyTemplate : Option (List (Nat × List Nat))) (ulPrivateKeyAttributeCount : Nat)
    (phPublicKeyNull : Bool) (phPrivateKeyNull : Bool) : Outcome GenerateKeyPairResult :=
  match StateAccessor.get_keypair st hSession with
  | Except.error err => Outcome.ok ⟨err.into_ck_rv, st, none, none⟩
  | Except.ok (private_key_handle, pubkey_handle) =>
      if phPublicKeyNull then Outcome.panic PanicReason.nullDeref st
      else if phPrivateKeyNull then Outcome.panic PanicReason.nullDeref st
      else Outcome.ok ⟨CKR_OK, st, some pubkey_handle, some private_key_handle⟩

/-- Observable result of C_WrapKey: the status, the state, the length value
written through pulWrappedKeyLen and the bytes copied to pWrappedKey. -/
structure WrapKeyResult where
  rv : Nat
  state : TokenState
  pulWrappedKeyLen : Option Nat
  pWrappedKey : Option (List Nat)
deriving DecidableEq

/-- Entry point C_WrapKey from key_management.rs: null check of the length
pointer only, resolution of the wrapping and target keys, get_value().unwrap()
on both (a missing value is a panic), encryption of the target key material,
unconditional write-back of the blob length, and the copy of the blob only
when the destination pointer is non-null. -/
def C_WrapKey (cipher : BlockCipher) (st : TokenState) (rng : List Nat)
    (hSession : Nat) (hWrappingKey : Nat) (hKey : Nat)
    (pWrappedKeyNull : Bool) (pulWrappedKeyLenNull : Bool) : Outcome WrapKeyResult :=
  if pulWrappedKeyLenNull then Outcome.ok ⟨CKR_ARGUMENTS_BAD, st, none, none⟩
  else
    match StateAccessor.get_object st hSession hWrappingKey with
    | Except.error err => Outcome.ok ⟨err.into_ck_rv, st, none, none⟩
    | Except.ok wrapping_key =>
        match StateAccessor.get_object st hSession hKey with
        | Except.error err => Outcome.ok ⟨err.into_ck_rv, st, none, none⟩
        | Except.ok private_key =>
            match private_key.get_value, wrapping_key.get_value with
            | none, _ => Outcome.panic PanicReason.noValue st
            | some _, none => Outcome.panic PanicReason.noValue st
            | some pkv, some key =>
                let ciphertext_with_iv := (encrypt cipher key pkv rng).into_combined
                if pWrappedKeyNull then
                  Outcome.ok ⟨CKR_OK, st, some ciphertext_with_iv.length, none⟩
                else
                  Outcome.ok ⟨CKR_OK, st, some ciphertext_with_iv.length,
                    some ciphertext_with_iv⟩

/-- Observable result of C_UnwrapKey: the status, the state after the call
and the handle written through phKey. -/
structure UnwrapKeyResult where
  rv : Nat
  state : TokenState
  phKey : Option Nat
deriving DecidableEq

/-- Entry point C_UnwrapKey from key_management.rs: null check of the
wrapped-key pointer only, resolution of the unwrapping key,
get_value().unwrap() (a missing value is a panic), destructuring of the blob
(a blob shorter than one block is a panic of the source, not a status),
decryption (a padding failure likewise), construction of a fresh
PrivateKeyObject ignoring the caller template, ephemeral storage, and the
unconditional write of the new handle through phKey (null phKey is
dereferenced after the object store was already mutated). -/
def C_UnwrapKey (cipher : BlockCipher) (st : TokenState) (hSession : Nat)
    (hUnwrappingKey : Nat) (pWrappedKey : Option (List Nat)) (ulWrappedKeyLen : Nat)
    (pTemplate : Option (List (Nat × List Nat))) (ulAttributeCount : Nat)
    (phKeyNull : Bool) : Outcome UnwrapKeyResult :=
  match pWrappedKey with
  | none => Outcome.ok ⟨CKR_ARGUMENTS_BAD, st, none⟩
  | some blob =>
      match StateAccessor.get_object st hSession hUnwrappingKey with
      | Except.error err => Outcome.ok ⟨err.into_ck_rv, st, none⟩
      | Except.ok unwrapping_key =>
          match unwrapping_key.get_value with
          | none => Outcome.panic PanicReason.noValue st
          | some key =>
              match destructure_iv_ciphertext blob ulWrappedKeyLen with
              | none => Outcome.panic PanicReason.shortBlob st
              | some encryption_output =>
                  match decrypt cipher key encryption_output.ciphertext
                      encryption_output.iv with
                  | none => Outcome.panic PanicReason.badPadding st
                  | some plaintext =>
                      let private_key_object := PrivateKeyObject.new.store_value plaintext
                      match StateAccessor.create_ephemeral_object st hSession
                          private_key_object with
                      | Except.error err => Outcome.ok ⟨err.into_ck_rv, st, none⟩
                      | Except.ok (handle, st2) =>
                          if phKeyNull then Outcome.panic PanicReason.nullDeref st2
                          else Outcome.ok ⟨CKR_OK, st2, some handle⟩

/-- Entry point C_EncryptInit from pkcs11/src/cryptoki/encryption.rs: the
body is the unimplemented macro, i.e. an immediate panic. -/
def C_EncryptInit (st : TokenState) (hSession : Nat) (pMechanism : Option Nat)
    (hKey : Nat) : Outcome Nat :=
  Outcome.panic PanicReason.unimplemented st

/-- Entry point C_Encrypt from pkcs11/src/cryptoki/encryption.rs: the body is
the unimplemented macro, i.e. an immediate panic. -/
def C_Encrypt (st : TokenState) (hSession : Nat) (pData : Option (List Nat))
    (ulDataLen : Nat) (pEncryptedDataNull : Bool) (pulEncryptedDataLenNull : Bool) :
    Outcome Nat :=
  Outcome.panic PanicReason.unimplemented st

/-- Entry point C_EncryptUpdate from pkcs11/src/cryptoki/encryption.rs: the
body is the unimplemented macro, i.e. an immediate panic. -/
def C_EncryptUpdate (st : TokenState) (hSession : Nat) (pPart : Option (List Nat))
    (ulPartLen : Nat) (pEncryptedPartNull : Bool) (pulEncryptedPartLenNull : Bool) :
    Outcome Nat :=
  Outcome.panic PanicReason.unimplemented st

/-- Entry point C_EncryptFinal from pkcs11/src/cryptoki/encryption.rs: the
body is the unimplemented macro, i.e. an immediate panic. -/
def C_EncryptFinal (st : TokenState) (hSession : Nat)
    (pLastEncryptedPartNull : Bool) (pulLastEncryptedPartLenNull : Bool) :
    Outcome Nat :=
  Outcome.panic PanicReason.unimplemented st

/-- Splitting of a byte list into 16-byte chunks, fuelled by the list length
(one chunk is produced per fuel step, and a step consumes at least one
byte). -/
def chunkF : Nat → List Nat → List (List Nat)
  | 0, _ => []
  | n + 1, l =>
      match l with
      | [] => []
      | x :: r => (x :: r).take 16 :: chunkF n ((x :: r).drop 16)

/-- Invariant of the spec's object-population discipline: every object in
the store has been populated via store_value. -/
def valuesPresent (st : TokenState) : Prop :=
  ∀ o ∈ st.objects, o.obj.value.isSome = true

instance (st : TokenState) : Decidable (valuesPresent st) := by
  unfold valuesPresent; infer_instance

/-- Concrete block cipher used by the witnesses: each block is passed
through unchanged, which is trivially invertible and length-preserving. -/
def idCipher : BlockCipher :=
  ⟨fun _ b => b, fun _ b => b⟩

/-- Witness fixture: a state with no open session, so that create_object
fails with "session handle invalid". -/
def stEmpty : TokenState :=
  ⟨[], [], [], 1⟩

/-- Witness fixture: a state with session 1 open, two populated secret-key
objects at handles 1 and 2, and the keypair (private 10, public 11)
registered for session 1. -/
def stFix : TokenState :=
  ⟨[1],
   [⟨1, 1, false, ⟨ObjectClass.secretKey, [], some (List.replicate 16 5)⟩⟩,
    ⟨2, 1, false, ⟨ObjectClass.secretKey, [], some (List.range 16)⟩⟩],
   [(1, 10, 11)], 3⟩

/-- Witness fixture: one deterministic stand-in for the random stream. -/
def rngA : List Nat :=
  List.range 16

/-- Witness fixture: a second random stream whose first 16 bytes differ from
those of rngA. -/
def rngB : List Nat :=
  List.replicate 16 9


/-! ## List and engine lemmas -/

theorem xorB_length (a b : List Nat) : (xorB a b).length = min a.length b.length := by
  simp [xorB]

theorem xorB_xorB : ∀ (a b : List Nat), b.length = a.length → xorB (xorB a b) b = a
  | [], _, _ => by simp [xorB]
  | x :: xs, [], h => by simp at h
  | x :: xs, y :: ys, h => by
      simp only [xorB, List.zipWith_cons_cons]
      refine congrArg₂ List.cons ?_ (xorB_xorB xs ys ?_)
      · rw [Nat.xor_assoc, Nat.xor_self, Nat.xor_zero]
      · simpa using h

theorem take16_append (b R : List Nat) (hb : b.length = 16) : (b ++ R).take 16 = b := by
  rw [← hb, List.take_left]

theorem drop16_append (b R : List Nat) (hb : b.length = 16) : (b ++ R).drop 16 = R := by
  rw [← hb, List.drop_left]

theorem getLast?_append_replicate (l : List Nat) (k a : Nat) (hk : k ≠ 0) :
    (l ++ List.replicate k a).getLast? = some a := by
  cases k with
  | zero => exact absurd rfl hk
  | succ k =>
      rw [List.replicate_succ', ← List.append_assoc, List.getLast?_concat]

theorem cbcEncGo_nil (E : List Nat → List Nat) (n : Nat) (prev : List Nat) :
    cbcEncGo E n prev [] = [] := by
  cases n <;> rfl

theorem cbcDecGo_nil (D : List Nat → List Nat) (n : Nat) (prev : List Nat) :
    cbcDecGo D n prev [] = [] := by
  cases n <;> rfl

theorem cbcEncGo_block (E : List Nat → List Nat) (n : Nat) (prev b R : List Nat)
    (hb : b.length = 16) :
    cbcEncGo E (n + 1) prev (b ++ R) =
      E (xorB b prev) ++ cbcEncGo E n (E (xorB b prev)) R := by
  cases b with
  | nil => simp at hb
  | cons x xs =>
      show E (xorB (((x :: xs) ++ R).take 16) prev) ++
          cbcEncGo E n (E (xorB (((x :: xs) ++ R).take 16) prev)) (((x :: xs) ++ R).drop 16) =
        E (xorB (x :: xs) prev) ++ cbcEncGo E n (E (xorB (x :: xs) prev)) R
      rw [take16_append _ _ hb, drop16_append _ _ hb]

theorem cbcDecGo_block (D : List Nat → List Nat) (n : Nat) (prev c R : List Nat)
    (hc : c.length = 16) :
    cbcDecGo D (n + 1) prev (c ++ R) =
      xorB (D c) prev ++ cbcDecGo D n c R := by
  cases c with
  | nil => simp at hc
  | cons x xs =>
      show xorB (D (((x :: xs) ++ R).take 16)) prev ++
          cbcDecGo D n (((x :: xs) ++ R).take 16) (((x :: xs) ++ R).drop 16) =
        xorB (D (x :: xs)) prev ++ cbcDecGo D n (x :: xs) R
      rw [take16_append _ _ hc, drop16_append _ _ hc]

theorem cbcEncGo_length (E : List Nat → List Nat) (hElen : ∀ b, (E b).length = b.length) :
    ∀ (bs : List (List Nat)) (n : Nat) (prev : List Nat),
      (∀ b ∈ bs, b.length = 16) → prev.length = 16 → bs.length ≤ n →
      (cbcEncGo E n prev bs.flatten).length = bs.flatten.length
  | [], n, prev, _, _, _ => by simp [cbcEncGo_nil]
  | b :: bs, n + 1, prev, hbs, hprev, hn => by
      have hb : b.length = 16 := hbs b (by simp)
      have hx : (xorB b prev).length = 16 := by
        rw [xorB_length, hb, hprev]; exact Nat.min_self 16
      have hc : (E (xorB b prev)).length = 16 := by rw [hElen]; exact hx
      rw [List.flatten_cons, cbcEncGo_block E n prev b bs.flatten hb]
      have ih := cbcEncGo_length E hElen bs n (E (xorB b prev))
        (fun x hxm => hbs x (by simp [hxm])) hc (Nat.le_of_succ_le_succ hn)
      simp [ih, hc, hb]

theorem cbc_roundtrip (E D : List Nat → List Nat)
    (hED : ∀ b, D (E b) = b) (hElen : ∀ b, (E b).length = b.length) :
    ∀ (bs : List (List Nat)) (prev : List Nat) (nE nD : Nat),
      (∀ b ∈ bs, b.length = 16) → prev.length = 16 →
      bs.length ≤ nE → bs.length ≤ nD →
      cbcDecGo D nD prev (cbcEncGo E nE prev bs.flatten) = bs.flatten
  | [], prev, nE, nD, _, _, _, _ => by simp [cbcEncGo_nil, cbcDecGo_nil]
  | b :: bs, prev, nE + 1, nD + 1, hbs, hprev, hnE, hnD => by
      have hb : b.length = 16 := hbs b (by simp)
      have hx : (xorB b prev).length = 16 := by
        rw [xorB_length, hb, hprev]; exact Nat.min_self 16
      have hc : (E (xorB b prev)).length = 16 := by rw [hElen]; exact hx
      rw [List.flatten_cons, cbcEncGo_block E nE prev b bs.flatten hb,
        cbcDecGo_block D nD prev (E (xorB b prev)) _ hc, hED,
        xorB_xorB b prev (by rw [hb, hprev]),
        cbc_roundtrip E D hED hElen bs (E (xorB b prev)) nE nD
          (fun x hxm => hbs x (by simp [hxm])) hc
          (Nat.le_of_succ_le_succ hnE) (Nat.le_of_succ_le_succ hnD)]

theorem chunkF_join : ∀ (n : Nat) (l : List Nat), l.length ≤ n → (chunkF n l).flatten = l
  | 0, l, h => by
      have hl : l = [] := List.length_eq_zero.mp (Nat.le_zero.mp h)
      simp [hl, chunkF]
  | n + 1, [], _ => by simp [chunkF]
  | n + 1, x :: r, h => by
      show ((x :: r).take 16 ++ (chunkF n ((x :: r).drop 16)).flatten) = x :: r
      rw [chunkF_join n ((x :: r).drop 16)
        (by simp only [List.length_drop]; simp at h ⊢; omega)]
      exact List.take_append_drop 16 (x :: r)

theorem chunkF_blocks : ∀ (n : Nat) (l : List Nat), l.length ≤ n → 16 ∣ l.length →
    ∀ b ∈ chunkF n l, b.length = 16
  | 0, l, h, _ => by
      have hl : l = [] := List.length_eq_zero.mp (Nat.le_zero.mp h)
      simp [hl, chunkF]
  | n + 1, [], _, _ => by simp [chunkF]
  | n + 1, x :: r, h, hdvd => by
      have hge : 16 ≤ (x :: r).length := by
        rcases hdvd with ⟨k, hk⟩
        rcases k with _ | k
        · simp at hk
        · simp at hk ⊢; omega
      intro b hbmem
      have hmem2 : b = (x :: r).take 16 ∨ b ∈ chunkF n ((x :: r).drop 16) := by
        have : b ∈ (x :: r).take 16 :: chunkF n ((x :: r).drop 16) := hbmem
        exact List.mem_cons.mp this
      rcases hmem2 with rfl | hmem2
      · rw [List.length_take]; simp at hge ⊢; omega
      · exact chunkF_blocks n ((x :: r).drop 16)
          (by simp only [List.length_drop]; simp at h ⊢; omega)
          (by simp only [List.length_drop]
              exact Nat.dvd_sub' hdvd (dvd_refl 16))
          b hmem2

theorem chunkF_count : ∀ (n : Nat) (l : List Nat), (chunkF n l).length ≤ l.length
  | 0, l => by simp [chunkF]
  | n + 1, [] => by simp [chunkF]
  | n + 1, x :: r => by
      show ((x :: r).take 16 :: chunkF n ((x :: r).drop 16)).length ≤ (x :: r).length
      have := chunkF_count n ((x :: r).drop 16)
      simp only [List.length_cons, List.length_drop] at this ⊢
      omega

theorem exists_blocks (l : List Nat) (hdvd : 16 ∣ l.length) :
    ∃ bs : List (List Nat),
      bs.flatten = l ∧ (∀ b ∈ bs, b.length = 16) ∧ bs.length ≤ l.length :=
  ⟨chunkF l.length l, chunkF_join l.length l (le_refl _),
    chunkF_blocks l.length l (le_refl _) hdvd,
    chunkF_count l.length l⟩

theorem pkcs7_pad_length (l : List Nat) :
    (pkcs7_pad l).length = l.length + (16 - l.length % 16) := by
  simp [pkcs7_pad]

theorem pkcs7_pad_dvd (l : List Nat) : 16 ∣ (pkcs7_pad l).length := by
  rw [pkcs7_pad_length]
  refine ⟨l.length / 16 + 1, ?_⟩
  have h1 : l.length % 16 < 16 := Nat.mod_lt _ (by omega)
  have h2 : 16 * (l.length / 16) + l.length % 16 = l.length := Nat.div_add_mod _ 16
  omega

theorem pkcs7_unpad_pad (l : List Nat) : pkcs7_unpad (pkcs7_pad l) = some l := by
  have hmod : l.length % 16 < 16 := Nat.mod_lt _ (by omega)
  have hp1 : 1 ≤ 16 - l.length % 16 := by omega
  set p := 16 - l.length % 16 with hp
  have hlast : (pkcs7_pad l).getLast? = some p :=
    getLast?_append_replicate l p p (by omega)
  have hlen : (pkcs7_pad l).length = l.length + p := by
    rw [pkcs7_pad_length, ← hp]
  rw [pkcs7_unpad, hlast]
  dsimp only
  have hcond : ¬(p = 0 ∨ 16 < p ∨ (pkcs7_pad l).length < p) := by
    rw [hlen]; push_neg
    refine ⟨by omega, by omega, by omega⟩
  rw [if_neg hcond]
  have hsub : (pkcs7_pad l).length - p = l.length := by rw [hlen]; omega
  have hdrop : (pkcs7_pad l).drop ((pkcs7_pad l).length - p) = List.replicate p p := by
    rw [hsub]
    exact List.drop_left l (List.replicate p p)
  rw [if_pos hdrop, hsub]
  rw [pkcs7_pad]
  rw [List.take_left]

theorem decrypt_encrypt (cipher : BlockCipher) (key v rng : List Nat)
    (hED : ∀ b, cipher.dec key (cipher.enc key b) = b)
    (hElen : ∀ b, (cipher.enc key b).length = b.length)
    (hrng : 16 ≤ rng.length) :
    decrypt cipher key (encrypt cipher key v rng).ciphertext
      (encrypt cipher key v rng).iv = some v := by
  obtain ⟨bs, hjoin, hblocks, hcount⟩ := exists_blocks (pkcs7_pad v) (pkcs7_pad_dvd v)
  have hiv : (rng.take AES_IV_SIZE).length = 16 := by
    rw [List.length_take]
    exact Nat.min_eq_left hrng
  show pkcs7_unpad (cbcDecGo (cipher.dec key)
      (cbcEncGo (cipher.enc key) (pkcs7_pad v).length (rng.take AES_IV_SIZE)
        (pkcs7_pad v)).length
      (rng.take AES_IV_SIZE)
      (cbcEncGo (cipher.enc key) (pkcs7_pad v).length (rng.take AES_IV_SIZE)
        (pkcs7_pad v))) = some v
  rw [← hjoin]
  have hfuel : bs.length ≤ bs.flatten.length := by rw [hjoin]; exact hcount
  rw [cbcEncGo_length (cipher.enc key) hElen bs bs.flatten.length
    (rng.take AES_IV_SIZE) hblocks hiv hfuel]
  rw [cbc_roundtrip (cipher.enc key) (cipher.dec key) hED hElen bs
    (rng.take AES_IV_SIZE) bs.flatten.length bs.flatten.length hblocks hiv hfuel hfuel]
  rw [hjoin, pkcs7_unpad_pad]

/-! ## Helper lemmas about the entry points -/

theorem get_object_mem (st : TokenState) (s h : Nat) (o : CryptokiObject)
    (hget : StateAccessor.get_object st s h = Except.ok o) :
    ∃ so ∈ st.objects, so.obj = o := by
  unfold StateAccessor.get_object at hget
  split at hget
  · split at hget
    next so hfind =>
      split at hget
      · injection hget with hh
        exact ⟨so, List.mem_of_find?_eq_some hfind, hh⟩
      · exact absurd hget (by simp)
    next hfind => exact absurd hget (by simp)
  · exact absurd hget (by simp)

theorem get_object_value_isSome (st : TokenState) (s h : Nat) (o : CryptokiObject)
    (hinv : valuesPresent st)
    (hget : StateAccessor.get_object st s h = Except.ok o) :
    o.value.isSome = true := by
  obtain ⟨so, hmem, hobj⟩ := get_object_mem st s h o hget
  rw [← hobj]
  exact hinv so hmem

theorem C_WrapKey_resolved (cipher : BlockCipher) (st : TokenState) (rng : List Nat)
    (s hw hk : Nat) (wObj kObj : CryptokiObject) (wv kv : List Nat) (pwNull : Bool)
    (hgetw : StateAccessor.get_object st s hw = Except.ok wObj)
    (hgetk : StateAccessor.get_object st s hk = Except.ok kObj)
    (hwv : wObj.get_value = some wv)
    (hkv : kObj.get_value = some kv) :
    C_WrapKey cipher st rng s hw hk pwNull false =
      Outcome.ok ⟨CKR_OK, st, some (encrypt cipher wv kv rng).into_combined.length,
        if pwNull then none else some (encrypt cipher wv kv rng).into_combined⟩ := by
  unfold C_WrapKey
  rw [if_neg (by simp)]
  rw [hgetw, hgetk]
  dsimp only
  rw [hkv, hwv]
  cases pwNull <;> simp

/-! ## Claim theorems -/

/-- C8 counterexample: the mechanism gate of the source compares the CK_ULONG
mechanism only after truncation to u32 (the `as u32` cast of
key_management.rs:50). The mechanism 2^32 + 0x1080 = 4294971520 is different
from CKM_AES_KEY_GEN, yet C_GenerateKey at a state with session 1 open
accepts it, generates a key, extends the object table and returns CKR_OK —
it does not return the non-support status and it does create an object. -/
theorem generateKey_wrapped_mechanism_not_rejected :
    (4294971520 : Nat) ≠ CKM_AES_KEY_GEN ∧
    C_GenerateKey stFix rngA 1 (some 4294971520) (some []) 0 false =
      ⟨CKR_OK,
       { stFix with
         objects := ⟨3, 1, false,
           (SecretKeyObject.from_template []).store_value (rngA.take 16)⟩
             :: stFix.objects,
         nextHandle := 4 },
       some 3⟩ := by
  refine ⟨by decide, by decide⟩

/-- C8 amended: a C_GenerateKey call with non-null pMechanism, pTemplate and
phKey whose mechanism differs from CKM_AES_KEY_GEN modulo 2^32 (the source
truncates the mechanism code to u32 before comparing) returns the
non-support status (CKR_FUNCTION_NOT_SUPPORTED is the status code this
implementation maps the unsupported-mechanism condition to) and creates no
object: the state is returned unchanged and nothing is written through
phKey. -/
theorem generateKey_unsupported_mechanism (st : TokenState) (rng : List Nat)
    (hSession mech : Nat) (tmpl : List (Nat × List Nat)) (cnt : Nat)
    (hmech : mech % 4294967296 ≠ CKM_AES_KEY_GEN) :
    C_GenerateKey st rng hSession (some mech) (some tmpl) cnt false =
      ⟨CKR_FUNCTION_NOT_SUPPORTED, st, none⟩ := by
  simp [C_GenerateKey, hmech]

theorem generateKey_unsupported_mechanism_witness :
    C_GenerateKey stFix rngA 1 (some 0) (some []) 0 false =
      ⟨CKR_FUNCTION_NOT_SUPPORTED, stFix, none⟩ :=
  generateKey_unsupported_mechanism stFix rngA 1 0 [] 0 (by decide)

/-- C1: evaluation of C_GenerateKey at a state with no open session, where
create_object fails with "session handle invalid": because the error arm of
the source has no return statement, the call writes the error code
CKR_SESSION_HANDLE_INVALID through phKey as if it were a handle and returns
CKR_OK — it does not return the error status. -/
theorem generateKey_create_object_failure_returns_ok :
    C_GenerateKey stEmpty rngA 1 (some CKM_AES_KEY_GEN) (some []) 0 false =
      ⟨CKR_OK, stEmpty, some CKR_SESSION_HANDLE_INVALID⟩ := by
  decide

/-- C4: evaluation of the four encryption entry points of
pkcs11/src/cryptoki/encryption.rs: each call reaches the unimplemented macro
and panics (aborting the process), instead of returning the
CKR_FUNCTION_NOT_SUPPORTED status. -/
theorem encryption_entry_points_panic :
    C_EncryptInit stFix 1 (some CKM_AES_KEY_GEN) 1 =
      Outcome.panic PanicReason.unimplemented stFix ∧
    C_Encrypt stFix 1 (some [1, 2, 3]) 3 true true =
      Outcome.panic PanicReason.unimplemented stFix ∧
    C_EncryptUpdate stFix 1 (some [1]) 1 true true =
      Outcome.panic PanicReason.unimplemented stFix ∧
    C_EncryptFinal stFix 1 true true =
      Outcome.panic PanicReason.unimplemented stFix :=
  ⟨rfl, rfl, rfl, rfl⟩

/-- C2: evaluation of C_UnwrapKey at a five-byte blob (shorter than one
16-byte cipher block) with a resolvable, populated unwrapping key: the
engine's short-blob failure is unhandled by the caller, so the call panics
instead of returning the CKR_WRAPPED_KEY_INVALID status; the state at the
abort is unchanged, so no object was created. -/
theorem unwrapKey_short_blob_panics :
    C_UnwrapKey idCipher stFix 1 1 (some [1, 2, 3, 4, 5]) 5 none 0 false =
      Outcome.panic PanicReason.shortBlob stFix := by
  decide

/-- C10: two C_UnwrapKey calls that agree on the cipher, state, session,
unwrapping-key handle, blob and output-pointer flag but differ arbitrarily in
pTemplate and ulAttributeCount return identical results: the caller-supplied
template is ignored and the recovered key is stored in a freshly constructed
private-key object. -/
theorem unwrapKey_ignores_template (cipher : BlockCipher) (st : TokenState)
    (hSession hUnwrappingKey : Nat) (pWrappedKey : Option (List Nat))
    (ulWrappedKeyLen : Nat) (t1 t2 : Option (List (Nat × List Nat)))
    (c1 c2 : Nat) (phKeyNull : Bool) :
    C_UnwrapKey cipher st hSession hUnwrappingKey pWrappedKey ulWrappedKeyLen
        t1 c1 phKeyNull =
      C_UnwrapKey cipher st hSession hUnwrappingKey pWrappedKey ulWrappedKeyLen
        t2 c2 phKeyNull :=
  rfl

/-- C5 counterexample: C_GenerateKeyPair called with a null phPublicKey at a
state where the session's keypair resolves does not return
CKR_ARGUMENTS_BAD — the source has no null check on the output-handle
pointers and dereferences the null pointer. -/
theorem generateKeyPair_null_output_not_arguments_bad :
    C_GenerateKeyPair stFix 1 none none 0 none 0 true false =
      Outcome.panic PanicReason.nullDeref stFix ∧
    C_GenerateKeyPair stFix 1 none none 0 none 0 true false ≠
      Outcome.ok ⟨CKR_ARGUMENTS_BAD, stFix, none, none⟩ := by
  refine ⟨by decide, by decide⟩

theorem encrypt_iv_eq (cipher : BlockCipher) (key v rng : List Nat) :
    (encrypt cipher key v rng).iv = rng.take 16 :=
  rfl

theorem encrypt_iv_length (cipher : BlockCipher) (key v rng : List Nat)
    (hrng : 16 ≤ rng.length) : (encrypt cipher key v rng).iv.length = 16 := by
  rw [encrypt_iv_eq, List.length_take]
  exact Nat.min_eq_left hrng

theorem encrypt_ciphertext_length (cipher : BlockCipher) (key v rng : List Nat)
    (hElen : ∀ b, (cipher.enc key b).length = b.length)
    (hrng : 16 ≤ rng.length) :
    (encrypt cipher key v rng).ciphertext.length = (pkcs7_pad v).length := by
  obtain ⟨bs, hjoin, hblocks, hcount⟩ := exists_blocks (pkcs7_pad v) (pkcs7_pad_dvd v)
  have hiv : (rng.take AES_IV_SIZE).length = 16 := by
    rw [List.length_take]
    exact Nat.min_eq_left hrng
  show (cbcEncGo (cipher.enc key) (pkcs7_pad v).length (rng.take AES_IV_SIZE)
      (pkcs7_pad v)).length = (pkcs7_pad v).length
  conv_lhs => rw [← hjoin]
  rw [cbcEncGo_length (cipher.enc key) hElen bs bs.flatten.length
    (rng.take AES_IV_SIZE) hblocks hiv (by rw [hjoin]; exact hcount)]
  rw [hjoin]

theorem encrypt_combined_length (cipher : BlockCipher) (key v rng : List Nat)
    (hElen : ∀ b, (cipher.enc key b).length = b.length)
    (hrng : 16 ≤ rng.length) :
    (encrypt cipher key v rng).into_combined.length = 16 + (pkcs7_pad v).length := by
  show ((encrypt cipher key v rng).iv ++ (encrypt cipher key v rng).ciphertext).length = _
  rw [List.length_append, encrypt_iv_length cipher key v rng hrng,
    encrypt_ciphertext_length cipher key v rng hElen hrng]

theorem destructure_combined (eo : EncryptionOutput) (hiv : eo.iv.length = 16) :
    destructure_iv_ciphertext eo.into_combined eo.into_combined.length = some eo := by
  have hlen : eo.into_combined.length = 16 + eo.ciphertext.length := by
    show (eo.iv ++ eo.ciphertext).length = 16 + eo.ciphertext.length
    rw [List.length_append, hiv]
  unfold destructure_iv_ciphertext
  simp only [AES_IV_SIZE, AES_BLOCK_SIZE]
  rw [List.take_length]
  rw [if_neg (by rw [hlen]; omega)]
  show some ⟨eo.into_combined.take 16, eo.into_combined.drop 16⟩ = some eo
  have h1 : eo.into_combined.take 16 = eo.iv :=
    take16_append eo.iv eo.ciphertext hiv
  have h2 : eo.into_combined.drop 16 = eo.ciphertext :=
    drop16_append eo.iv eo.ciphertext hiv
  rw [h1, h2]

theorem C_UnwrapKey_resolved (cipher : BlockCipher) (st : TokenState)
    (s hu : Nat) (uObj : CryptokiObject) (uv : List Nat) (blob : List Nat) (len : Nat)
    (eo : EncryptionOutput) (pt : List Nat)
    (tmpl : Option (List (Nat × List Nat))) (cnt : Nat) (phN : Bool)
    (hget : StateAccessor.get_object st s hu = Except.ok uObj)
    (huv : uObj.get_value = some uv)
    (hdes : destructure_iv_ciphertext blob len = some eo)
    (hdec : decrypt cipher uv eo.ciphertext eo.iv = some pt)
    (hsess : s ∈ st.sessions) :
    C_UnwrapKey cipher st s hu (some blob) len tmpl cnt phN =
      if phN then Outcome.panic PanicReason.nullDeref
        { st with objects := ⟨st.nextHandle, s, true, PrivateKeyObject.new.store_value pt⟩
            :: st.objects, nextHandle := st.nextHandle + 1 }
      else Outcome.ok ⟨CKR_OK,
        { st with objects := ⟨st.nextHandle, s, true, PrivateKeyObject.new.store_value pt⟩
            :: st.objects, nextHandle := st.nextHandle + 1 },
        some st.nextHandle⟩ := by
  unfold C_UnwrapKey
  dsimp only
  rw [hget]
  dsimp only
  rw [huv]
  dsimp only
  rw [hdes]
  dsimp only
  rw [hdec]
  dsimp only
  unfold StateAccessor.create_ephemeral_object
  rw [if_pos hsess]

theorem create_object_preserves (st : TokenState) (s : Nat) (obj : CryptokiObject)
    (hdl : Nat) (st2 : TokenState) (hinv : valuesPresent st)
    (hval : obj.value.isSome = true)
    (hc : StateAccessor.create_object st s obj = Except.ok (hdl, st2)) :
    valuesPresent st2 := by
  unfold StateAccessor.create_object at hc
  split at hc
  · injection hc with hpair
    injection hpair with h1 h2
    subst h2
    intro o ho
    rcases List.mem_cons.mp ho with rfl | hmem
    · exact hval
    · exact hinv o hmem
  · exact absurd hc (by simp)

theorem create_ephemeral_object_preserves (st : TokenState) (s : Nat)
    (obj : CryptokiObject) (hdl : Nat) (st2 : TokenState) (hinv : valuesPresent st)
    (hval : obj.value.isSome = true)
    (hc : StateAccessor.create_ephemeral_object st s obj = Except.ok (hdl, st2)) :
    valuesPresent st2 := by
  unfold StateAccessor.create_ephemeral_object at hc
  split at hc
  · injection hc with hpair
    injection hpair with h1 h2
    subst h2
    intro o ho
    rcases List.mem_cons.mp ho with rfl | hmem
    · exact hval
    · exact hinv o hmem
  · exact absurd hc (by simp)

/-- C3: the wrap/unwrap round trip. For any state resolving the wrapping-key
handle hw to key material wv and the target handle hk to key material kv, and
any invertible, length-preserving block cipher, C_WrapKey produces the blob
IV-then-ciphertext, and C_UnwrapKey on that blob under the same wrapping key
succeeds and stores exactly kv — the original key material — in a freshly
created ephemeral private-key object. -/
theorem wrap_unwrap_roundtrip (cipher : BlockCipher) (st : TokenState) (rng : List Nat)
    (s hw hk : Nat) (wObj kObj : CryptokiObject) (wv kv : List Nat)
    (tmpl : Option (List (Nat × List Nat))) (cnt : Nat)
    (hgetw : StateAccessor.get_object st s hw = Except.ok wObj)
    (hgetk : StateAccessor.get_object st s hk = Except.ok kObj)
    (hwv : wObj.get_value = some wv)
    (hkv : kObj.get_value = some kv)
    (hED : ∀ b, cipher.dec wv (cipher.enc wv b) = b)
    (hElen : ∀ b, (cipher.enc wv b).length = b.length)
    (hrng : 16 ≤ rng.length)
    (hsess : s ∈ st.sessions) :
    C_WrapKey cipher st rng s hw hk false false =
      Outcome.ok ⟨CKR_OK, st, some (encrypt cipher wv kv rng).into_combined.length,
        some (encrypt cipher wv kv rng).into_combined⟩ ∧
    C_UnwrapKey cipher st s hw (some (encrypt cipher wv kv rng).into_combined)
        (encrypt cipher wv kv rng).into_combined.length tmpl cnt false =
      Outcome.ok ⟨CKR_OK,
        { st with
          objects := ⟨st.nextHandle, s, true, PrivateKeyObject.new.store_value kv⟩
            :: st.objects,
          nextHandle := st.nextHandle + 1 },
        some st.nextHandle⟩ ∧
    (PrivateKeyObject.new.store_value kv).get_value = some kv := by
  refine ⟨?_, ?_, rfl⟩
  · simpa using C_WrapKey_resolved cipher st rng s hw hk wObj kObj wv kv false
      hgetw hgetk hwv hkv
  · simpa using C_UnwrapKey_resolved cipher st s hw wObj wv
      (encrypt cipher wv kv rng).into_combined
      (encrypt cipher wv kv rng).into_combined.length
      (encrypt cipher wv kv rng) kv tmpl cnt false
      hgetw hwv
      (destructure_combined (encrypt cipher wv kv rng)
        (encrypt_iv_length cipher wv kv rng hrng))
      (decrypt_encrypt cipher wv kv rng hED hElen hrng)
      hsess

theorem wrap_unwrap_roundtrip_witness :
    C_WrapKey idCipher stFix rngA 1 1 2 false false =
      Outcome.ok ⟨CKR_OK, stFix,
        some (encrypt idCipher (List.replicate 16 5) (List.range 16) rngA).into_combined.length,
        some (encrypt idCipher (List.replicate 16 5) (List.range 16) rngA).into_combined⟩ ∧
    C_UnwrapKey idCipher stFix 1 1
        (some (encrypt idCipher (List.replicate 16 5) (List.range 16) rngA).into_combined)
        (encrypt idCipher (List.replicate 16 5) (List.range 16) rngA).into_combined.length
        none 0 false =
      Outcome.ok ⟨CKR_OK,
        { stFix with
          objects := ⟨stFix.nextHandle, 1, true,
            PrivateKeyObject.new.store_value (List.range 16)⟩ :: stFix.objects,
          nextHandle := stFix.nextHandle + 1 },
        some stFix.nextHandle⟩ ∧
    (PrivateKeyObject.new.store_value (List.range 16)).get_value =
      some (List.range 16) :=
  wrap_unwrap_roundtrip idCipher stFix rngA 1 1 2
    ⟨ObjectClass.secretKey, [], some (List.replicate 16 5)⟩
    ⟨ObjectClass.secretKey, [], some (List.range 16)⟩
    (List.replicate 16 5) (List.range 16) none 0
    rfl rfl rfl rfl (fun b => rfl) (fun b => rfl) (by decide) (by decide)

/-- C6: IV freshness of the wrap path. The blob C_WrapKey produces starts
with exactly the 16 bytes drawn from the random source for this call; the
remainder is a function of the wrapping key, the target key and that IV
only; and two wrap calls whose random draws differ in the first 16 bytes
produce blobs with different IV prefixes. -/
theorem wrap_iv_freshness (cipher : BlockCipher) (st : TokenState)
    (rng1 rng2 : List Nat) (s hw hk : Nat) (wObj kObj : CryptokiObject)
    (wv kv : List Nat)
    (hgetw : StateAccessor.get_object st s hw = Except.ok wObj)
    (hgetk : StateAccessor.get_object st s hk = Except.ok kObj)
    (hwv : wObj.get_value = some wv)
    (hkv : kObj.get_value = some kv)
    (h1 : 16 ≤ rng1.length) (h2 : 16 ≤ rng2.length) :
    C_WrapKey cipher st rng1 s hw hk false false =
      Outcome.ok ⟨CKR_OK, st, some (encrypt cipher wv kv rng1).into_combined.length,
        some (encrypt cipher wv kv rng1).into_combined⟩ ∧
    (encrypt cipher wv kv rng1).into_combined.take 16 = rng1.take 16 ∧
    (encrypt cipher wv kv rng1).into_combined.drop 16 =
      cbcEncGo (cipher.enc wv) (pkcs7_pad kv).length (rng1.take 16) (pkcs7_pad kv) ∧
    (rng1.take 16 ≠ rng2.take 16 →
      (encrypt cipher wv kv rng1).into_combined.take 16 ≠
        (encrypt cipher wv kv rng2).into_combined.take 16) := by
  have htake : ∀ rng : List Nat, 16 ≤ rng.length →
      (encrypt cipher wv kv rng).into_combined.take 16 = rng.take 16 := by
    intro rng hr
    show ((encrypt cipher wv kv rng).iv ++ (encrypt cipher wv kv rng).ciphertext).take 16
      = rng.take 16
    rw [take16_append _ _ (encrypt_iv_length cipher wv kv rng hr), encrypt_iv_eq]
  refine ⟨?_, htake rng1 h1, ?_, ?_⟩
  · simpa using C_WrapKey_resolved cipher st rng1 s hw hk wObj kObj wv kv false
      hgetw hgetk hwv hkv
  · show ((encrypt cipher wv kv rng1).iv ++ (encrypt cipher wv kv rng1).ciphertext).drop 16
      = cbcEncGo (cipher.enc wv) (pkcs7_pad kv).length (rng1.take 16) (pkcs7_pad kv)
    rw [drop16_append _ _ (encrypt_iv_length cipher wv kv rng1 h1)]
    rfl
  · intro hne
    rw [htake rng1 h1, htake rng2 h2]
    exact hne

theorem wrap_iv_freshness_witness :
    C_WrapKey idCipher stFix rngA 1 1 2 false false =
      Outcome.ok ⟨CKR_OK, stFix,
        some (encrypt idCipher (List.replicate 16 5) (List.range 16) rngA).into_combined.length,
        some (encrypt idCipher (List.replicate 16 5) (List.range 16) rngA).into_combined⟩ ∧
    (encrypt idCipher (List.replicate 16 5) (List.range 16) rngA).into_combined.take 16 =
      rngA.take 16 ∧
    (encrypt idCipher (List.replicate 16 5) (List.range 16) rngA).into_combined.drop 16 =
      cbcEncGo (idCipher.enc (List.replicate 16 5)) (pkcs7_pad (List.range 16)).length
        (rngA.take 16) (pkcs7_pad (List.range 16)) ∧
    (rngA.take 16 ≠ rngB.take 16 →
      (encrypt idCipher (List.replicate 16 5) (List.range 16) rngA).into_combined.take 16 ≠
        (encrypt idCipher (List.replicate 16 5) (List.range 16) rngB).into_combined.take 16) :=
  wrap_iv_freshness idCipher stFix rngA rngB 1 1 2
    ⟨ObjectClass.secretKey, [], some (List.replicate 16 5)⟩
    ⟨ObjectClass.secretKey, [], some (List.range 16)⟩
    (List.replicate 16 5) (List.range 16)
    rfl rfl rfl rfl (by decide) (by decide)

/-- C7: the two-call length convention of C_WrapKey. With both handles
resolvable, a call with a null destination buffer returns CKR_OK, writes the
exact required blob length (16 IV bytes plus the padded-ciphertext length)
through pulWrappedKeyLen, copies nothing, and leaves the state unchanged; a
subsequent call with a destination writes back the same length — written
unconditionally before the destination-pointer check — and copies a blob of
exactly that length. -/
theorem wrapKey_two_call_convention (cipher : BlockCipher) (st : TokenState)
    (rng1 rng2 : List Nat) (s hw hk : Nat) (wObj kObj : CryptokiObject)
    (wv kv : List Nat)
    (hgetw : StateAccessor.get_object st s hw = Except.ok wObj)
    (hgetk : StateAccessor.get_object st s hk = Except.ok kObj)
    (hwv : wObj.get_value = some wv)
    (hkv : kObj.get_value = some kv)
    (hElen : ∀ b, (cipher.enc wv b).length = b.length)
    (h1 : 16 ≤ rng1.length) (h2 : 16 ≤ rng2.length) :
    C_WrapKey cipher st rng1 s hw hk true false =
      Outcome.ok ⟨CKR_OK, st, some (16 + (pkcs7_pad kv).length), none⟩ ∧
    C_WrapKey cipher st rng2 s hw hk false false =
      Outcome.ok ⟨CKR_OK, st, some (16 + (pkcs7_pad kv).length),
        some (encrypt cipher wv kv rng2).into_combined⟩ ∧
    (encrypt cipher wv kv rng2).into_combined.length = 16 + (pkcs7_pad kv).length := by
  have hL1 := encrypt_combined_length cipher wv kv rng1 hElen h1
  have hL2 := encrypt_combined_length cipher wv kv rng2 hElen h2
  refine ⟨?_, ?_, hL2⟩
  · have h := C_WrapKey_resolved cipher st rng1 s hw hk wObj kObj wv kv true
      hgetw hgetk hwv hkv
    rw [hL1] at h
    simpa using h
  · have h := C_WrapKey_resolved cipher st rng2 s hw hk wObj kObj wv kv false
      hgetw hgetk hwv hkv
    rw [hL2] at h
    simpa using h

theorem wrapKey_two_call_convention_witness :
    C_WrapKey idCipher stFix rngA 1 1 2 true false =
      Outcome.ok ⟨CKR_OK, stFix, some (16 + (pkcs7_pad (List.range 16)).length), none⟩ ∧
    C_WrapKey idCipher stFix rngB 1 1 2 false false =
      Outcome.ok ⟨CKR_OK, stFix, some (16 + (pkcs7_pad (List.range 16)).length),
        some (encrypt idCipher (List.replicate 16 5) (List.range 16) rngB).into_combined⟩ ∧
    (encrypt idCipher (List.replicate 16 5) (List.range 16) rngB).into_combined.length =
      16 + (pkcs7_pad (List.range 16)).length :=
  wrapKey_two_call_convention idCipher stFix rngA rngB 1 1 2
    ⟨ObjectClass.secretKey, [], some (List.replicate 16 5)⟩
    ⟨ObjectClass.secretKey, [], some (List.range 16)⟩
    (List.replicate 16 5) (List.range 16)
    rfl rfl rfl rfl (fun b => rfl) (by decide) (by decide)

/-- C5 amended: the entry points validate exactly these required pointers —
C_GenerateKey its pMechanism, pTemplate and phKey, C_WrapKey its
pulWrappedKeyLen, C_UnwrapKey its pWrappedKey — and a violation returns
CKR_ARGUMENTS_BAD with no state mutation and nothing written. The
output-handle pointers of C_GenerateKeyPair (phPublicKey, phPrivateKey) and
of C_UnwrapKey (phKey) are NOT validated: with a resolvable keypair a null
phPublicKey is dereferenced (process abort) instead of producing
CKR_ARGUMENTS_BAD, and a C_UnwrapKey whose unwrap succeeds dereferences a
null phKey only after the object table has already been extended. -/
theorem null_pointer_checks_amended (cipher : BlockCipher) (st : TokenState)
    (rng : List Nat) (s hw hk hu : Nat) :
    (∀ tmpl cnt phN, C_GenerateKey st rng s none tmpl cnt phN =
      ⟨CKR_ARGUMENTS_BAD, st, none⟩) ∧
    (∀ mech cnt phN, C_GenerateKey st rng s mech none cnt phN =
      ⟨CKR_ARGUMENTS_BAD, st, none⟩) ∧
    (∀ mech tmpl cnt, C_GenerateKey st rng s mech tmpl cnt true =
      ⟨CKR_ARGUMENTS_BAD, st, none⟩) ∧
    (∀ pwNull, C_WrapKey cipher st rng s hw hk pwNull true =
      Outcome.ok ⟨CKR_ARGUMENTS_BAD, st, none, none⟩) ∧
    (∀ len tmpl cnt phN, C_UnwrapKey cipher st s hu none len tmpl cnt phN =
      Outcome.ok ⟨CKR_ARGUMENTS_BAD, st, none⟩) ∧
    (∀ mechp tp1 cp1 tp2 cp2 priv pub phPrivN,
      StateAccessor.get_keypair st s = Except.ok (priv, pub) →
      C_GenerateKeyPair st s mechp tp1 cp1 tp2 cp2 true phPrivN =
        Outcome.panic PanicReason.nullDeref st) ∧
    (∀ blob len tmpl cnt uObj uv eo pt,
      StateAccessor.get_object st s hu = Except.ok uObj →
      uObj.get_value = some uv →
      destructure_iv_ciphertext blob len = some eo →
      decrypt cipher uv eo.ciphertext eo.iv = some pt →
      s ∈ st.sessions →
      C_UnwrapKey cipher st s hu (some blob) len tmpl cnt true =
        Outcome.panic PanicReason.nullDeref
          { st with
            objects := ⟨st.nextHandle, s, true, PrivateKeyObject.new.store_value pt⟩
              :: st.objects,
            nextHandle := st.nextHandle + 1 }) := by
  refine ⟨?_, ?_, ?_, ?_, ?_, ?_, ?_⟩
  · intro tmpl cnt phN; cases tmpl <;> cases phN <;> rfl
  · intro mech cnt phN; cases mech <;> cases phN <;> rfl
  · intro mech tmpl cnt; cases mech <;> cases tmpl <;> rfl
  · intro pwNull
    unfold C_WrapKey
    rw [if_pos rfl]
  · intro len tmpl cnt phN; rfl
  · intro mechp tp1 cp1 tp2 cp2 priv pub phPrivN hkp
    unfold C_GenerateKeyPair
    rw [hkp]
    simp
  · intro blob len tmpl cnt uObj uv eo pt hget huv hdes hdec hsess
    simpa using C_UnwrapKey_resolved cipher st s hu uObj uv blob len eo pt
      tmpl cnt true hget huv hdes hdec hsess

theorem null_pointer_checks_amended_witness :
    C_GenerateKey stFix rngA 1 none (some []) 0 false =
      ⟨CKR_ARGUMENTS_BAD, stFix, none⟩ ∧
    C_WrapKey idCipher stFix rngA 1 1 2 false true =
      Outcome.ok ⟨CKR_ARGUMENTS_BAD, stFix, none, none⟩ ∧
    C_UnwrapKey idCipher stFix 1 1 none 0 none 0 false =
      Outcome.ok ⟨CKR_ARGUMENTS_BAD, stFix, none⟩ ∧
    C_GenerateKeyPair stFix 1 none none 0 none 0 true false =
      Outcome.panic PanicReason.nullDeref stFix :=
  have h := null_pointer_checks_amended idCipher stFix rngA 1 1 2 1
  ⟨h.1 (some []) 0 false,
   h.2.2.2.1 false,
   h.2.2.2.2.1 0 none 0 false,
   h.2.2.2.2.2.1 none none 0 none 0 10 11 false rfl⟩

/-- C9: under the population discipline of the spec — every object in the
store has been given a value via store_value before being stored, an
invariant both creation paths of the sources maintain — the
get_value().unwrap() calls of the key-wrap paths never panic: C_WrapKey
always returns a status (it has no other panic source), C_UnwrapKey never
aborts with the no-value condition, and both creation paths preserve the
invariant. -/
theorem wrap_paths_get_value_no_panic (cipher : BlockCipher) (st : TokenState)
    (rng : List Nat) (s hw hk hu : Nat) (pwNull lenNull : Bool)
    (pw : Option (List Nat)) (len : Nat) (tmpl : Option (List (Nat × List Nat)))
    (cnt : Nat) (phN : Bool) (mech : Option Nat)
    (gtmpl : Option (List (Nat × List Nat))) (gcnt : Nat) (gphN : Bool)
    (hinv : valuesPresent st) :
    (∃ r, C_WrapKey cipher st rng s hw hk pwNull lenNull = Outcome.ok r) ∧
    (∀ st2, C_UnwrapKey cipher st s hu pw len tmpl cnt phN ≠
      Outcome.panic PanicReason.noValue st2) ∧
    valuesPresent (C_GenerateKey st rng s mech gtmpl gcnt gphN).state ∧
    (∀ r, C_UnwrapKey cipher st s hu pw len tmpl cnt phN = Outcome.ok r →
      valuesPresent r.state) := by
  refine ⟨?_, ?_, ?_, ?_⟩
  · unfold C_WrapKey
    split
    · exact ⟨_, rfl⟩
    · rcases hgo : StateAccessor.get_object st s hw with e | wObj
      · exact ⟨_, rfl⟩
      · rcases hgk : StateAccessor.get_object st s hk with e | kObj
        · exact ⟨_, rfl⟩
        · obtain ⟨wv, hwv⟩ := Option.isSome_iff_exists.mp
            (get_object_value_isSome st s hw wObj hinv hgo)
          obtain ⟨kv, hkv⟩ := Option.isSome_iff_exists.mp
            (get_object_value_isSome st s hk kObj hinv hgk)
          dsimp only
          rw [show kObj.get_value = some kv from hkv,
            show wObj.get_value = some wv from hwv]
          dsimp only
          split
          · exact ⟨_, rfl⟩
          · exact ⟨_, rfl⟩
  · intro st2 hcontra
    rcases pw with _ | blob
    · exact absurd hcontra (by simp [C_UnwrapKey])
    · unfold C_UnwrapKey at hcontra
      dsimp only at hcontra
      rcases hgo : StateAccessor.get_object st s hu with e | uObj <;>
        rw [hgo] at hcontra <;> dsimp only at hcontra
      · exact absurd hcontra (by simp)
      · obtain ⟨uv, huv⟩ := Option.isSome_iff_exists.mp
          (get_object_value_isSome st s hu uObj hinv hgo)
        rw [show uObj.get_value = some uv from huv] at hcontra
        dsimp only at hcontra
        rcases hdes : destructure_iv_ciphertext blob len with _ | eo <;>
          rw [hdes] at hcontra <;> dsimp only at hcontra
        · exact absurd hcontra (by simp)
        · rcases hdec : decrypt cipher uv eo.ciphertext eo.iv with _ | pt <;>
            rw [hdec] at hcontra <;> dsimp only at hcontra
          · exact absurd hcontra (by simp)
          · rcases hce : StateAccessor.create_ephemeral_object st s
                (PrivateKeyObject.new.store_value pt) with e | pr
            · rw [hce] at hcontra; dsimp only at hcontra
              exact absurd hcontra (by simp)
            · rcases pr with ⟨hdl, st3⟩
              rw [hce] at hcontra; dsimp only at hcontra
              cases phN
              · exact absurd hcontra (by simp)
              · exact absurd hcontra (by simp)
  · rcases mech with _ | m
    · rcases gtmpl with _ | t <;> cases gphN <;> exact hinv
    · rcases gtmpl with _ | t
      · cases gphN <;> exact hinv
      · cases gphN
        · unfold C_GenerateKey
          dsimp only
          split
          · exact hinv
          · rcases hco : StateAccessor.create_object st s
                ((SecretKeyObject.from_template (t.take gcnt)).store_value
                  (rng.take 16)) with e | ⟨hdl, st3⟩
            · exact hinv
            · exact create_object_preserves st s _ hdl st3 hinv
                (by simp [CryptokiObject.store_value]) hco
        · exact hinv
  · intro r hr
    rcases pw with _ | blob
    · unfold C_UnwrapKey at hr
      dsimp only at hr
      injection hr with h2
      rw [← h2]
      exact hinv
    · unfold C_UnwrapKey at hr
      dsimp only at hr
      rcases hgo : StateAccessor.get_object st s hu with e | uObj <;>
        rw [hgo] at hr <;> dsimp only at hr
      · injection hr with h2; rw [← h2]; exact hinv
      · obtain ⟨uv, huv⟩ := Option.isSome_iff_exists.mp
          (get_object_value_isSome st s hu uObj hinv hgo)
        rw [show uObj.get_value = some uv from huv] at hr
        dsimp only at hr
        rcases hdes : destructure_iv_ciphertext blob len with _ | eo <;>
          rw [hdes] at hr <;> dsimp only at hr
        · exact absurd hr (by simp)
        · rcases hdec : decrypt cipher uv eo.ciphertext eo.iv with _ | pt <;>
            rw [hdec] at hr <;> dsimp only at hr
          · exact absurd hr (by simp)
          · rcases hce : StateAccessor.create_ephemeral_object st s
                (PrivateKeyObject.new.store_value pt) with e | pr
            · rw [hce] at hr; dsimp only at hr
              injection hr with h2; rw [← h2]; exact hinv
            · rcases pr with ⟨hdl, st3⟩
              rw [hce] at hr; dsimp only at hr
              cases phN
              · injection hr with h2
                rw [← h2]
                exact create_ephemeral_object_preserves st s _ hdl st3 hinv
                  (by simp [CryptokiObject.store_value]) hce
              · exact absurd hr (by simp)

theorem wrap_paths_get_value_no_panic_witness :
    (∃ r, C_WrapKey idCipher stFix rngA 1 1 2 false false = Outcome.ok r) ∧
    (∀ st2, C_UnwrapKey idCipher stFix 1 1 (some [1, 2]) 2 none 0 false ≠
      Outcome.panic PanicReason.noValue st2) ∧
    valuesPresent (C_GenerateKey stFix rngA 1 (some CKM_AES_KEY_GEN)
      (some []) 0 false).state ∧
    (∀ r, C_UnwrapKey idCipher stFix 1 1 (some [1, 2]) 2 none 0 false =
      Outcome.ok r → valuesPresent r.state) :=
  wrap_paths_get_value_no_panic idCipher stFix rngA 1 1 2 1 false false
    (some [1, 2]) 2 none 0 false (some CKM_AES_KEY_GEN) (some []) 0 false
    (by decide)
